import Mathlib

/-!
# Verification of `logseq-mcp` core logic

Shallow embedding, in Lean 4, of the core logic of the `logseq-mcp`
repository, together with theorems checking the natural-language
specification against it.  The embedded components are:

* `ResourceCache` (`src/logseq_mcp/utils/cache.py`): a TTL cache,
  modelled as an association list of `(key, value, storedAt)` entries
  with explicit integer timestamps passed in for `datetime.now()`.
* the page-path resolver (`src/logseq_mcp/utils/filesystem.py`):
  `get_page_file_path`, `is_journal_page_name`,
  `convert_journal_name_to_path` and `get_file_metadata`, modelled over
  an abstract filesystem given as the list of paths (relative to the
  graph root) that exist.
* the graph-structure analysis loop of `get_graph_structure`
  (`src/logseq_mcp/resources.py`), modelled over a list of per-page
  remote-call outcomes (`Except` values standing for Python exceptions).
* the name-resolution environment of `resources.py`, used to settle the
  cache-key claims about `get_recent_pages` / `get_recent_journals`,
  and the attribute set of the `Config` class of `config.py`.

Python strings are modelled as `List Char`; Python timestamps
(`datetime` values and `st_mtime`/`st_ctime`) as integers.
-/

/-- Python strings, modelled as lists of characters. -/
abbrev Str := List Char

/-- Coerce a Lean string literal to the `List Char` model. -/
def str (s : String) : Str := s.data

/-! ## TTL cache (`utils/cache.py`, class `ResourceCache`)

`self._cache : Dict[str, Tuple[Any, datetime]]` is modelled as an
association list with at most one entry per key (dict semantics are
enforced by `cacheInsert`, which overwrites in place).  `datetime.now()`
is modelled by an explicit `now : Int` argument, and
`self._ttl = timedelta(seconds=ttl_seconds)` by an `Int`. -/

/-- The state of a `ResourceCache`: the `_cache` dict and the `_ttl`. -/
structure CacheState (V : Type) where
  entries : List (Str × V × Int)
  ttl : Int

/-- Dict read: value stored under `k`, with its timestamp, if present. -/
def cacheLookup {V : Type} (c : List (Str × V × Int)) (k : Str) :
    Option (V × Int) :=
  match c with
  | [] => none
  | (k', v, t) :: rest => if k' = k then some (v, t) else cacheLookup rest k

/-- Dict write `self._cache[key] = (data, now)`: overwrite the entry in
place if the key is present, else append it. -/
def cacheInsert {V : Type} (c : List (Str × V × Int)) (k : Str) (v : V)
    (t : Int) : List (Str × V × Int) :=
  match c with
  | [] => [(k, v, t)]
  | (k', v', t') :: rest =>
    if k' = k then (k, v, t) :: rest
    else (k', v', t') :: cacheInsert rest k v t

/-- `ResourceCache.get_or_fetch(key, fetcher)`.  The fetcher is a pure
value here (`fetchVal` stands for the result of the single call
`fetcher()`); the returned `Bool` records whether the fetcher was
invoked.  Mirrors: if the key is present and
`datetime.now() - timestamp < self._ttl`, return the cached data;
otherwise call the fetcher, store `(data, now)` and return the data. -/
def get_or_fetch {V : Type} (st : CacheState V) (now : Int) (key : Str)
    (fetchVal : V) : V × CacheState V × Bool :=
  match cacheLookup st.entries key with
  | some (data, timestamp) =>
    if now - timestamp < st.ttl then (data, st, false)
    else (fetchVal, { st with entries := cacheInsert st.entries key fetchVal now }, true)
  | none =>
    (fetchVal, { st with entries := cacheInsert st.entries key fetchVal now }, true)

/-- `ResourceCache.invalidate(key=None)`.  Mirrors Python truthiness:
`if key:` is taken only when `key` is neither `None` nor the empty
string, and then `self._cache.pop(key, None)` removes the entry for
`key`; otherwise `self._cache.clear()` empties the dict. -/
def invalidate {V : Type} (c : List (Str × V × Int)) (key : Option Str) :
    List (Str × V × Int) :=
  match key with
  | some k => if k = [] then [] else c.filter (fun e => decide (e.1 ≠ k))
  | none => []

/-- `ResourceCache.is_cached(key)`. -/
def is_cached {V : Type} (st : CacheState V) (now : Int) (key : Str) : Bool :=
  match cacheLookup st.entries key with
  | some (_, timestamp) => now - timestamp < st.ttl
  | none => false

/-! ## Page-path resolver (`utils/filesystem.py`)

The on-disk state is abstracted as a `Graph`: whether the configured
`graph_path` is usable (non-empty and `os.path.exists`), and the list of
paths, relative to the graph root, for which `Path.exists()` is true. -/

/-- Abstract filesystem state for one graph root. -/
structure Graph where
  rootOk : Bool
  files : List Str

/-- The first replacement of `get_page_file_path`:
`page_name.replace("/", "___")`. -/
def replaceSlash : Str → Str
  | [] => []
  | c :: cs =>
    if c = '/' then '_' :: '_' :: '_' :: replaceSlash cs
    else c :: replaceSlash cs

/-- The second replacement: `re.sub(r'[<>:"|?*]', '_', safe_name)`,
applied character by character. -/
def sanitizeChar (c : Char) : Char :=
  if c = '<' ∨ c = '>' ∨ c = ':' ∨ c = '"' ∨ c = '|' ∨ c = '?' ∨ c = '*'
  then '_' else c

/-- The `safe_name` computed by `get_page_file_path`: replace `/` by
`___`, then sanitize the filesystem-illegal characters. -/
def safeNameOf (pageName : Str) : Str := (replaceSlash pageName).map sanitizeChar

/-- ASCII lower-casing, modelling `re.IGNORECASE` matching. -/
def lowAscii (c : Char) : Char :=
  if 'A' ≤ c ∧ c ≤ 'Z' then Char.ofNat (c.toNat + 32) else c

/-- Match a (lower-case) literal pattern case-insensitively at the head
of the input; return the rest of the input on success. -/
def matchCI : Str → Str → Option Str
  | [], s => some s
  | _ :: _, [] => none
  | p :: ps, c :: cs => if p = lowAscii c then matchCI ps cs else none

/-- Try an alternation of (lower-case month name, month number) pairs at
the head of the input, first match wins.  No month name is a prefix of
another, so the order of alternatives is immaterial. -/
def matchMonth : List (Str × Nat) → Str → Option (Nat × Str)
  | [], _ => none
  | (nm, m) :: rest, s =>
    match matchCI nm s with
    | some r => some (m, r)
    | none => matchMonth rest s

/-- Abbreviated month names, as matched by `%b` and by the first
journal-name regex alternation `(Jan|Feb|...|Dec)`. -/
def monthAbbrevs : List (Str × Nat) :=
  [(str "jan", 1), (str "feb", 2), (str "mar", 3), (str "apr", 4),
   (str "may", 5), (str "jun", 6), (str "jul", 7), (str "aug", 8),
   (str "sep", 9), (str "oct", 10), (str "nov", 11), (str "dec", 12)]

/-- Full month names, as matched by `%B` and by the second journal-name
regex alternation. -/
def monthFulls : List (Str × Nat) :=
  [(str "january", 1), (str "february", 2), (str "march", 3),
   (str "april", 4), (str "may", 5), (str "june", 6), (str "july", 7),
   (str "august", 8), (str "september", 9), (str "october", 10),
   (str "november", 11), (str "december", 12)]

/-- ASCII whitespace, modelling the regex class `\s`. -/
def isPyWS (c : Char) : Bool :=
  c == ' ' || c == '\t' || c == '\n' || c == '\r' || c == '\x0b' || c == '\x0c'

/-- Consume one or more whitespace characters (`\s+`; also what a blank
inside an `strptime` format compiles to).  Greedy consumption is exact
here because every token following `\s+` in the modelled patterns starts
with a non-whitespace character. -/
def ws1 : Str → Option Str
  | [] => none
  | c :: cs => if isPyWS c then some (cs.dropWhile isPyWS) else none

/-- Numeric value of an ASCII digit. -/
def digitVal (c : Char) : Option Nat :=
  if c.isDigit then some (c.toNat - 48) else none

/-- The regex `\d{1,2}`, greedy.  Maximal munch is exact because the
next token in both journal-name patterns (`(st|nd|rd|th)?,`) cannot
start with a digit. -/
def parseDay12 : Str → Option (Nat × Str)
  | [] => none
  | [c] => (digitVal c).map (fun d => (d, []))
  | c1 :: c2 :: rest =>
    match digitVal c1, digitVal c2 with
    | some d1, some d2 => some (10 * d1 + d2, rest)
    | some d1, none => some (d1, c2 :: rest)
    | none, _ => none

/-- The `strptime` day directive `%d`, whose compiled pattern is
`3[01]|[12]\d|0[0-9]|[0-9]`: a two-digit value up to 31, else a single
digit.  Backtracking to the one-digit alternative can never rescue a
failed match in the modelled formats (the day is always followed by a
non-digit), so first-match is exact. -/
def parseDayD : Str → Option (Nat × Str)
  | [] => none
  | [c] => (digitVal c).map (fun d => (d, []))
  | c1 :: c2 :: rest =>
    match digitVal c1, digitVal c2 with
    | some d1, some d2 =>
      if 10 * d1 + d2 ≤ 31 then some (10 * d1 + d2, rest)
      else some (d1, c2 :: rest)
    | some d1, none => some (d1, c2 :: rest)
    | none, _ => none

/-- The optional ordinal group `(st|nd|rd|th)?` of the first
journal-name regex, case-insensitive. -/
def matchOrdinalOpt (s : Str) : Str :=
  match s with
  | a :: b :: rest =>
    if (lowAscii a = 's' ∧ lowAscii b = 't') ∨
       (lowAscii a = 'n' ∧ lowAscii b = 'd') ∨
       (lowAscii a = 'r' ∧ lowAscii b = 'd') ∨
       (lowAscii a = 't' ∧ lowAscii b = 'h')
    then rest else s
  | _ => s

/-- Consume one expected literal character. -/
def expectChar (c : Char) : Str → Option Str
  | [] => none
  | x :: xs => if x = c then some xs else none

/-- The regex `\d{4}` (also the compiled pattern of `%Y`). -/
def parseYear4 : Str → Option (Nat × Str)
  | a :: b :: c :: d :: rest =>
    match digitVal a, digitVal b, digitVal c, digitVal d with
    | some x, some y, some z, some w => some (1000 * x + 100 * y + 10 * z + w, rest)
    | _, _, _, _ => none
  | _ => none

/-- The first pattern of `is_journal_page_name`:
`^(Jan|...|Dec)\s+\d{1,2}(st|nd|rd|th)?,\s+\d{4}$` with `re.IGNORECASE`. -/
def matchesJournalAbbrev (s : Str) : Bool :=
  (do
    let (_, r1) ← matchMonth monthAbbrevs s
    let r2 ← ws1 r1
    let (_, r3) ← parseDay12 r2
    let r4 := matchOrdinalOpt r3
    let r5 ← expectChar ',' r4
    let r6 ← ws1 r5
    let (_, r7) ← parseYear4 r6
    if r7 = [] then some () else none).isSome

/-- The second pattern of `is_journal_page_name`:
`^(January|...|December)\s+\d{1,2},\s+\d{4}$` with `re.IGNORECASE`. -/
def matchesJournalFull (s : Str) : Bool :=
  (do
    let (_, r1) ← matchMonth monthFulls s
    let r2 ← ws1 r1
    let (_, r3) ← parseDay12 r2
    let r5 ← expectChar ',' r3
    let r6 ← ws1 r5
    let (_, r7) ← parseYear4 r6
    if r7 = [] then some () else none).isSome

/-- `is_journal_page_name(page_name)`: true iff one of the two journal
patterns matches. -/
def is_journal_page_name (s : Str) : Bool :=
  matchesJournalAbbrev s || matchesJournalFull s

/-- Global substitution `re.sub(r'(\d+)(st|nd|rd|th)', r'\1', name)`
(note: this one is case-sensitive): after each maximal digit run, a
lower-case ordinal suffix is dropped; scanning continues after the
match. -/
def stripOrdinalsAux : Nat → Str → Str
  | 0, s => s
  | _ + 1, [] => []
  | _ + 1, [c] => [c]
  | fuel + 1, c :: 's' :: 't' :: rest =>
    if c.isDigit then c :: stripOrdinalsAux fuel rest
    else c :: stripOrdinalsAux fuel ('s' :: 't' :: rest)
  | fuel + 1, c :: 'n' :: 'd' :: rest =>
    if c.isDigit then c :: stripOrdinalsAux fuel rest
    else c :: stripOrdinalsAux fuel ('n' :: 'd' :: rest)
  | fuel + 1, c :: 'r' :: 'd' :: rest =>
    if c.isDigit then c :: stripOrdinalsAux fuel rest
    else c :: stripOrdinalsAux fuel ('r' :: 'd' :: rest)
  | fuel + 1, c :: 't' :: 'h' :: rest =>
    if c.isDigit then c :: stripOrdinalsAux fuel rest
    else c :: stripOrdinalsAux fuel ('t' :: 'h' :: rest)
  | fuel + 1, c :: d :: rest => c :: stripOrdinalsAux fuel (d :: rest)

/-- Entry point of the substitution; the fuel bounds the number of
scanning steps, each of which consumes at least one character, so the
input length suffices. -/
def stripOrdinals (s : Str) : Str := stripOrdinalsAux s.length s

/-- Gregorian leap-year rule, as used by `datetime`. -/
def isLeapYear (y : Nat) : Bool :=
  y % 4 == 0 && (y % 100 != 0 || y % 400 == 0)

/-- Number of days of a month, as validated by the `datetime`
constructor. -/
def daysInMonth (y m : Nat) : Nat :=
  if m = 2 then (if isLeapYear y then 29 else 28)
  else if m = 4 ∨ m = 6 ∨ m = 9 ∨ m = 11 then 30
  else 31

/-- `datetime.strptime(s, fmt)` for the six formats used by
`convert_journal_name_to_path`, all of shape
`<month token> <%d><literal suffix>, <%Y>` (the literal suffix is empty
for `"%b %d, %Y"` and `"%B %d, %Y"`, and one of `st`/`nd`/`rd`/`th` for
the four ordinal variants).  `strptime` compiles the format with
`re.IGNORECASE`, turns each blank into `\s+`, requires the whole string
to be consumed, and the resulting `datetime(year, month, day)`
constructor call validates the day against the month length (raising
`ValueError`, i.e. `none` here, otherwise). -/
def strptimeMDY (months : List (Str × Nat)) (litSuffix : Str) (s : Str) :
    Option (Nat × Nat × Nat) := do
  let (month, r1) ← matchMonth months s
  let r2 ← ws1 r1
  let (day, r3) ← parseDayD r2
  let r4 ← matchCI litSuffix r3
  let r5 ← expectChar ',' r4
  let r6 ← ws1 r5
  let (year, r7) ← parseYear4 r6
  if r7 = [] ∧ 1 ≤ year ∧ 1 ≤ day ∧ day ≤ daysInMonth year month then
    some (year, month, day)
  else none

/-- The format candidates of `convert_journal_name_to_path`, in source
order: `["%b %d, %Y", "%B %d, %Y", "%b %dst, %Y", "%b %dnd, %Y",
"%b %drd, %Y", "%b %dth, %Y"]`, each given by its month-name alphabet
and its literal suffix after the day. -/
def strptimeFormats : List (List (Str × Nat) × Str) :=
  [(monthAbbrevs, str ""), (monthFulls, str ""),
   (monthAbbrevs, str "st"), (monthAbbrevs, str "nd"),
   (monthAbbrevs, str "rd"), (monthAbbrevs, str "th")]

/-- Decimal digit character of `n % 10`. -/
def decDigit (n : Nat) : Char :=
  match n % 10 with
  | 0 => '0' | 1 => '1' | 2 => '2' | 3 => '3' | 4 => '4'
  | 5 => '5' | 6 => '6' | 7 => '7' | 8 => '8' | _ => '9'

/-- Two-digit zero-padded rendering (`%m`, `%d`; both values are at most
31 wherever this is used). -/
def pad2 (n : Nat) : Str := [decDigit (n / 10), decDigit n]

/-- Four-digit rendering of a year (`%Y`; every year reaching this point
was parsed from exactly four digits). -/
def pad4 (n : Nat) : Str :=
  [decDigit (n / 1000), decDigit (n / 100), decDigit (n / 10), decDigit n]

/-- The stem `date_obj.strftime("%Y_%m_%d")`. -/
def journalFileStem (y m d : Nat) : Str :=
  pad4 y ++ '_' :: pad2 m ++ '_' :: pad2 d

/-- `date_obj.strftime("%Y_%m_%d.md")`. -/
def journalFileName (y m d : Nat) : Str := journalFileStem y m d ++ str ".md"

/-- The format loop of `convert_journal_name_to_path`: for each format
in order, parse the cleaned name; on parse success build
`journals/YYYY_MM_DD.md` and return it if that file exists, otherwise
(parse failure, or file absent) continue with the next format. -/
def tryJournalFormats : List (List (Str × Nat) × Str) → Str → Graph → Option Str
  | [], _, _ => none
  | (months, suffix) :: fmts, cleaned, g =>
    match strptimeMDY months suffix cleaned with
    | some (y, m, d) =>
      let journalPath := str "journals/" ++ journalFileName y m d
      if journalPath ∈ g.files then some journalPath
      else tryJournalFormats fmts cleaned g
    | none => tryJournalFormats fmts cleaned g

/-- `convert_journal_name_to_path(journal_name, graph_path)`.  The
`cleaned_name` is recomputed identically on every loop iteration in the
source, so it is hoisted here. -/
def convert_journal_name_to_path (journalName : Str) (g : Graph) : Option Str :=
  tryJournalFormats strptimeFormats (stripOrdinals journalName) g

/-- `get_page_file_path(page_name, graph_path)`: guard on the graph
root, compute the safe name, check `pages/`, then `journals/`, then the
journal-date fallback. -/
def get_page_file_path (pageName : Str) (g : Graph) : Option Str :=
  if g.rootOk then
    let safe := safeNameOf pageName
    let pagePath := str "pages/" ++ safe ++ str ".md"
    if pagePath ∈ g.files then some pagePath
    else
      let journalPath := str "journals/" ++ safe ++ str ".md"
      if journalPath ∈ g.files then some journalPath
      else if is_journal_page_name pageName then
        match convert_journal_name_to_path pageName g with
        | some datePath => if datePath ∈ g.files then some datePath else none
        | none => none
      else none
  else none

/-! ## File metadata (`get_file_metadata`) -/

/-- Outcome of `Path.stat()`: sizes and timestamps (timestamps modelled
as integers). -/
structure StatResult where
  st_size : Nat
  st_mtime : Int
  st_ctime : Int

/-- The dictionary returned by `get_file_metadata`. -/
structure FileMetadata where
  size : Nat
  size_mb : Rat
  modified_time : Int
  created_time : Int
  modified_date : Option Str
  created_date : Option Str
  «exists» : Bool
  deriving DecidableEq

/-- Python `round(q, 2)`: round to two decimal places, ties to even. -/
def round2 (q : Rat) : Rat :=
  let n : Rat := q * 100
  let f : Int := Int.floor n
  let frac : Rat := n - (f : Rat)
  let r : Int :=
    if frac < 1 / 2 then f
    else if 1 / 2 < frac then f + 1
    else if f % 2 = 0 then f else f + 1
  (r : Rat) / 100

/-- `get_file_metadata(file_path)`.  The `stat` outcome is passed in as
an `Option` (`none` models `OSError`/`IOError`, which the function
catches); `isoformat` abstracts `datetime.fromtimestamp(t).isoformat()`,
whose exact text depends on the local timezone. -/
def get_file_metadata (isoformat : Int → Str) (st : Option StatResult) :
    FileMetadata :=
  match st with
  | some s =>
    { size := s.st_size
      size_mb := round2 ((s.st_size : Rat) / 1024 / 1024)
      modified_time := s.st_mtime
      created_time := s.st_ctime
      modified_date := some (isoformat s.st_mtime)
      created_date := some (isoformat s.st_ctime)
      «exists» := true }
  | none =>
    { size := 0
      size_mb := 0
      modified_time := 0
      created_time := 0
      modified_date := none
      created_date := none
      «exists» := false }

/-! ## Graph-structure analysis (`resources.py`, `get_graph_structure`)

The remote client is abstracted per page: each page carries the outcome
of `get_page_linked_references` (its length, or a raised exception) and
of `get_page_blocks` (the `content` strings of its blocks, or a raised
exception).  `Except.error ()` stands for a raised exception. -/

/-- Whether `pat` occurs at the head of the second list. -/
def startsWith : Str → Str → Bool
  | [], _ => true
  | _ :: _, [] => false
  | a :: as, b :: bs => decide (a = b) && startsWith as bs

/-- Python substring containment `pat in s`. -/
def hasSubstr (pat : Str) : Str → Bool
  | [] => pat.isEmpty
  | c :: cs => startsWith pat (c :: cs) || hasSubstr pat cs

/-- One page of `get_all_pages()`, together with the outcomes of the
remote calls the analysis loop makes for it. -/
structure RemotePage where
  name : Str
  journal : Bool
  refs : Except Unit Nat
  blocks : Except Unit (List Str)

/-- The mutable loop state of `fetch_graph_structure`: the
`namespaces` defaultdict, the `orphaned_pages` list, and the
`page_link_counts` defaultdict (keys in insertion order). -/
structure GraphAcc where
  namespaces : List (Str × List Str)
  orphaned_pages : List Str
  page_link_counts : List (Str × Nat)
  deriving DecidableEq

/-- `namespaces[ns].append(page)` on a `defaultdict(list)`: append to
the existing bucket, or create the bucket at the end. -/
def nsAppend (nss : List (Str × List Str)) (ns page : Str) :
    List (Str × List Str) :=
  match nss with
  | [] => [(ns, [page])]
  | (k, ps) :: rest =>
    if k = ns then (k, ps ++ [page]) :: rest
    else (k, ps) :: nsAppend rest ns page

/-- `page_link_counts[name] = n`: overwrite in place or append. -/
def countSet (counts : List (Str × Nat)) (k : Str) (n : Nat) :
    List (Str × Nat) :=
  match counts with
  | [] => [(k, n)]
  | (k', n') :: rest =>
    if k' = k then (k, n) :: rest
    else (k', n') :: countSet rest k n

/-- `page_name.rsplit('/', 1)[0]`: everything before the last `/`
(only used when the name contains a `/`). -/
def namespaceKey (name : Str) : Str :=
  ((name.reverse.dropWhile (fun c => decide (c ≠ '/'))).drop 1).reverse

/-- One iteration of the `for page in all_pages` loop: namespace
bucketing first, then the `try` block — the linked-reference count is
recorded as soon as it is fetched, and only afterwards (for zero-count
pages) are the blocks fetched to look for outgoing `[[` markers; an
exception anywhere inside the `try` is caught and logged, leaving the
state as already mutated. -/
def processOne (acc : GraphAcc) (p : RemotePage) : GraphAcc :=
  let acc1 :=
    if '/' ∈ p.name then
      { acc with namespaces := nsAppend acc.namespaces (namespaceKey p.name) p.name }
    else
      { acc with namespaces := nsAppend acc.namespaces (str "_root") p.name }
  match p.refs with
  | .error _ => acc1
  | .ok linkCount =>
    let acc2 := { acc1 with
      page_link_counts := countSet acc1.page_link_counts p.name linkCount }
    if linkCount = 0 then
      match p.blocks with
      | .error _ => acc2
      | .ok blocks =>
        if blocks.any (fun b => hasSubstr (str "[[") b) then acc2
        else { acc2 with orphaned_pages := acc2.orphaned_pages ++ [p.name] }
    else acc2

/-- The whole analysis loop over `all_pages`. -/
def processPages (ps : List RemotePage) : GraphAcc :=
  ps.foldl processOne ⟨[], [], []⟩

/-- Insertion step of the model of Python
`sorted(items, key=lambda x: x[1], reverse=True)`.  The sort below
inserts each element into the sorted list of the elements that FOLLOW
it in iteration order, so `x` must be placed before the first element
whose count is less than or equal to its own: `x` then precedes every
tied element (all of which came later originally) and stays after every
strictly-greater one, reproducing the stability Python guarantees for
`sorted` (ties keep original iteration order, also under
`reverse=True`). -/
def insertByCountDesc (x : Str × Nat) : List (Str × Nat) → List (Str × Nat)
  | [] => [x]
  | y :: ys => if y.2 ≤ x.2 then x :: y :: ys else y :: insertByCountDesc x ys

/-- Stable sort, descending by count, ties in original order. -/
def sortByCountDesc : List (Str × Nat) → List (Str × Nat)
  | [] => []
  | x :: xs => insertByCountDesc x (sortByCountDesc xs)

/-- Python string `<=` (lexicographic by code point). -/
def strLe : Str → Str → Bool
  | [], _ => true
  | _ :: _, [] => false
  | a :: as, b :: bs =>
    if a < b then true else if b < a then false else strLe as bs

/-- Insertion step of `sorted(pages)` on strings. -/
def insertStrAsc (x : Str) : List Str → List Str
  | [] => [x]
  | y :: ys => if strLe y x then y :: insertStrAsc x ys else x :: y :: ys

/-- `sorted(pages)` for a list of page names. -/
def sortStrAsc : List Str → List Str
  | [] => []
  | x :: xs => insertStrAsc x (sortStrAsc xs)

/-- Bucket contents of the `namespaces` defaultdict under key `k`
(`namespaces.get(k, [])`). -/
def nsGet (nss : List (Str × List Str)) (k : Str) : List Str :=
  match nss with
  | [] => []
  | (k', ps) :: rest => if k' = k then ps else nsGet rest k

/-- The `structure` dictionary built by `fetch_graph_structure`. -/
structure GraphStructure where
  total_pages : Nat
  journal_pages : Nat
  regular_pages : Nat
  namespaces : List (Str × Nat × List Str)
  root_pages : Nat
  orphaned_count : Nat
  orphaned_list : List Str
  most_linked_pages : List (Str × Nat)
  deriving DecidableEq

/-- The body of `fetch_graph_structure` after the loop.  The three
truncation limits are parameters here: the source reads them as
`config.MAX_LINKED_PAGES`, `config.MAX_PAGES_PER_NAMESPACE` and
`config.MAX_ORPHANED_PAGES`, but the `Config` class never defines those
attributes (see `configClassAttributes` below). -/
def fetch_graph_structure (ps : List RemotePage)
    (maxLinkedPages maxPagesPerNamespace maxOrphanedPages : Nat) :
    GraphStructure :=
  let acc := processPages ps
  { total_pages := ps.length
    journal_pages := (ps.filter (fun p => p.journal)).length
    regular_pages := (ps.filter (fun p => !p.journal)).length
    namespaces :=
      (acc.namespaces.filter (fun e => decide (e.1 ≠ str "_root"))).map
        (fun e => (e.1, e.2.length, (sortStrAsc e.2).take maxPagesPerNamespace))
    root_pages := (nsGet acc.namespaces (str "_root")).length
    orphaned_count := acc.orphaned_pages.length
    orphaned_list := acc.orphaned_pages.take maxOrphanedPages
    most_linked_pages := (sortByCountDesc acc.page_link_counts).take maxLinkedPages }

/-- Whether a single page is added to `orphaned_pages` by its loop
iteration: zero linked references, blocks fetched without error, and no
block content containing the substring `[[`. -/
def orphanEligible (p : RemotePage) : Bool :=
  match p.refs with
  | .error _ => false
  | .ok linkCount =>
    match linkCount, p.blocks with
    | 0, .ok blocks => !(blocks.any (fun b => hasSubstr (str "[[") b))
    | _, _ => false

/-! ## Cache keys of `get_recent_pages` / `get_recent_journals`
(`resources.py`) and the `Config` attribute set (`config.py`)

`get_recent_pages` returns
`cache.get_or_fetch(f"recent_pages_{limit}", fetch_recent_pages)`; the
f-string is evaluated in the scope of the outer `get_recent_pages`,
where the only local binding is the inner function itself — `limit = 20`
is assigned only inside `fetch_recent_pages`, and no module-global or
builtin named `limit` exists.  Python name resolution is modelled as a
lookup of the variable in the environment of integer-valued bindings
visible at the point of the f-string; `none` models a `NameError`.
`get_recent_journals` and `days` are analogous. -/

/-- Integer-valued bindings in scope in the body of `get_recent_pages`
at the `cache.get_or_fetch` call: none (`fetch_recent_pages` is the only
local, and no global or builtin binds `limit`). -/
def getRecentPagesScope : List (Str × Nat) := []

/-- Integer-valued bindings in scope inside `fetch_recent_pages`, where
`limit = 20` is assigned. -/
def fetchRecentPagesScope : List (Str × Nat) := [(str "limit", 20)]

/-- Integer-valued bindings in scope in the body of
`get_recent_journals` at the `cache.get_or_fetch` call. -/
def getRecentJournalsScope : List (Str × Nat) := []

/-- Integer-valued bindings in scope inside `fetch_recent_journals`,
where `days = 7` is assigned. -/
def fetchRecentJournalsScope : List (Str × Nat) := [(str "days", 7)]

/-- Environment lookup for a variable occurrence. -/
def envLookup (env : List (Str × Nat)) (x : Str) : Option Nat :=
  match env with
  | [] => none
  | (k, v) :: rest => if k = x then some v else envLookup rest x

/-- Decimal rendering of a number, one digit per fuel step. -/
def natToDecimalAux : Nat → Nat → Str
  | 0, _ => []
  | fuel + 1, n =>
    if n < 10 then [decDigit n]
    else natToDecimalAux fuel (n / 10) ++ [decDigit n]

/-- Decimal rendering of a number interpolated into an f-string. -/
def natToDecimal (n : Nat) : Str := natToDecimalAux (n + 1) n

/-- Evaluation of an f-string `f"<head>{<var>}"` in an environment:
`none` models the `NameError` raised when the variable is unbound. -/
def fstringNatKey (head : Str) (env : List (Str × Nat)) (x : Str) :
    Option Str :=
  (envLookup env x).map (fun v => head ++ natToDecimal v)

/-- The cache key expression of `get_recent_pages`, evaluated in its
actual scope. -/
def recentPagesCacheKey : Option Str :=
  fstringNatKey (str "recent_pages_") getRecentPagesScope (str "limit")

/-- The cache key expression of `get_recent_journals`, evaluated in its
actual scope. -/
def recentJournalsCacheKey : Option Str :=
  fstringNatKey (str "recent_journals_") getRecentJournalsScope (str "days")

/-- The attributes defined by the `Config` class of `config.py` (class
body assignments and methods); `config = Config()` adds no instance
attributes, so an attribute access on `config` outside this list raises
`AttributeError`. -/
def configClassAttributes : List Str :=
  [str "LOGSEQ_API_URL", str "LOGSEQ_TOKEN", str "LOGSEQ_GRAPH_PATH",
   str "CACHE_TTL", str "MAX_BATCH_SIZE", str "REQUEST_TIMEOUT",
   str "validate"]

/-! ## Helper lemmas -/

theorem cacheLookup_cacheInsert_self {V : Type} (c : List (Str × V × Int))
    (k : Str) (v : V) (t : Int) :
    cacheLookup (cacheInsert c k v t) k = some (v, t) := by
  induction c with
  | nil => simp [cacheInsert, cacheLookup]
  | cons e rest ih =>
    obtain ⟨k2, v2, t2⟩ := e
    by_cases h : k2 = k
    · simp [cacheInsert, cacheLookup, h]
    · simp [cacheInsert, cacheLookup, h, ih]

theorem cacheLookup_filterNe_self {V : Type} (c : List (Str × V × Int))
    (k : Str) :
    cacheLookup (c.filter (fun e => decide (e.1 ≠ k))) k = none := by
  induction c with
  | nil => simp [cacheLookup]
  | cons e rest ih =>
    obtain ⟨k2, v2, t2⟩ := e
    by_cases h : k2 = k
    · simpa [List.filter, h] using ih
    · simpa [List.filter, h, cacheLookup] using ih

theorem cacheLookup_filterNe_other {V : Type} (c : List (Str × V × Int))
    (k k2 : Str) (hne : k2 ≠ k) :
    cacheLookup (c.filter (fun e => decide (e.1 ≠ k))) k2 = cacheLookup c k2 := by
  induction c with
  | nil => simp
  | cons e rest ih =>
    obtain ⟨k3, v3, t3⟩ := e
    simp only [decide_not] at ih
    by_cases h : k3 = k
    · have h2 : ¬ (k = k2) := fun hc => hne hc.symm
      simp [List.filter_cons, h, cacheLookup, h2, ih]
    · by_cases h3 : k3 = k2
      · simp [List.filter_cons, h, cacheLookup, h3, hne]
      · simp [List.filter_cons, h, cacheLookup, h3, ih]

/-! ## Claim theorems -/

/-- C2: `get_or_fetch(k, f)` at time `now`, with an entry `(v, ts)`
stored under `k`: if `now - ts < ttl` it returns the stored value
without invoking the fetcher; otherwise — including exactly
`now - ts = ttl` — and likewise when no entry exists, it invokes the
fetcher exactly once, stores `(f, now)` under `k` (so a subsequent
lookup of `k` finds `(f, now)`), and returns the fetched value. -/
theorem c2_get_or_fetch_ttl {V : Type} (st : CacheState V) (now : Int)
    (k : Str) (f : V) :
    (∀ v ts, cacheLookup st.entries k = some (v, ts) → now - ts < st.ttl →
      get_or_fetch st now k f = (v, st, false))
    ∧ (∀ v ts, cacheLookup st.entries k = some (v, ts) → st.ttl ≤ now - ts →
      get_or_fetch st now k f =
        (f, { st with entries := cacheInsert st.entries k f now }, true))
    ∧ (cacheLookup st.entries k = none →
      get_or_fetch st now k f =
        (f, { st with entries := cacheInsert st.entries k f now }, true))
    ∧ cacheLookup (cacheInsert st.entries k f now) k = some (f, now) := by
  refine ⟨?_, ?_, ?_, cacheLookup_cacheInsert_self _ _ _ _⟩
  · intro v ts hl hfresh
    simp [get_or_fetch, hl, hfresh]
  · intro v ts hl hexp
    simp [get_or_fetch, hl, not_lt.mpr hexp]
  · intro hl
    simp [get_or_fetch, hl]

/-- Witness for C2: a concrete fresh-hit run of `get_or_fetch`. -/
theorem c2_get_or_fetch_ttl_witness :
    cacheLookup ([((str "k"), (1 : Nat), (0 : Int))]) (str "k") = some (1, 0)
    ∧ (5 : Int) - 0 < 10
    ∧ get_or_fetch (⟨[((str "k"), (1 : Nat), (0 : Int))], 10⟩ : CacheState Nat)
        5 (str "k") 2 = (1, ⟨[((str "k"), 1, 0)], 10⟩, false) :=
  ⟨by decide, by decide,
    (c2_get_or_fetch_ttl (⟨[((str "k"), 1, 0)], 10⟩ : CacheState Nat)
      5 (str "k") 2).1 1 0 (by decide) (by decide)⟩

/-- C3 counterexample: `invalidate` with the empty-string key `""`
(which is falsy in Python, so `if key:` takes the `clear()` branch)
removes the entry stored under the distinct key `"a"`, contradicting
"for every key k given to invalidate(k), only the entry for k is removed
and every entry under any other key is left unchanged". -/
theorem c3_invalidate_counterexample :
    str "a" ≠ str ""
    ∧ cacheLookup [((str "a"), (0 : Nat), (0 : Int))] (str "a") = some (0, 0)
    ∧ cacheLookup (invalidate [((str "a"), (0 : Nat), (0 : Int))]
        (some (str ""))) (str "a") = none := by decide

/-- C3 amended: for every NON-EMPTY key `k`, `invalidate(k)` removes
only the entry for `k` and leaves every other key unchanged;
`invalidate` with no key — and likewise with the falsy empty-string
key — clears the entire cache; and `invalidate(k)` followed immediately
by `get_or_fetch(k, f)` invokes `f`, for every `k`. -/
theorem c3_invalidate_amended {V : Type} (c : List (Str × V × Int)) :
    (∀ k, k ≠ [] →
      cacheLookup (invalidate c (some k)) k = none
      ∧ ∀ k2, k2 ≠ k → cacheLookup (invalidate c (some k)) k2 = cacheLookup c k2)
    ∧ invalidate c none = []
    ∧ invalidate c (some []) = []
    ∧ (∀ (ttl now : Int) (k : Str) (f : V),
        (get_or_fetch ⟨invalidate c (some k), ttl⟩ now k f).2.2 = true
        ∧ (get_or_fetch ⟨invalidate c none, ttl⟩ now k f).2.2 = true) := by
  refine ⟨?_, rfl, by simp [invalidate], ?_⟩
  · intro k hk
    have h1 : invalidate c (some k) = c.filter (fun e => decide (e.1 ≠ k)) := by
      simp only [invalidate]
      rw [if_neg hk]
    constructor
    · rw [h1]
      exact cacheLookup_filterNe_self c k
    · intro k2 hk2
      rw [h1]
      exact cacheLookup_filterNe_other c k k2 hk2
  · intro ttl now k f
    constructor
    · by_cases hk : k = []
      · simp [invalidate, hk, get_or_fetch, cacheLookup]
      · have h1 : invalidate c (some k) = c.filter (fun e => decide (e.1 ≠ k)) := by
          simp only [invalidate]
          rw [if_neg hk]
        rw [h1]
        unfold get_or_fetch
        rw [cacheLookup_filterNe_self]
    · simp [invalidate, get_or_fetch, cacheLookup]

/-- Witness for C3 (amended): invalidating `"b"` leaves the entry under
`"a"` unchanged. -/
theorem c3_invalidate_amended_witness :
    str "b" ≠ ([] : Str)
    ∧ str "a" ≠ str "b"
    ∧ cacheLookup (invalidate [((str "a"), (1 : Nat), (0 : Int))]
        (some (str "b"))) (str "a")
      = cacheLookup [((str "a"), (1 : Nat), (0 : Int))] (str "a") :=
  ⟨by decide, by decide,
    ((c3_invalidate_amended [((str "a"), 1, 0)]).1 (str "b") (by decide)).2
      (str "a") (by decide)⟩

/-- C4: the safe name is the slash-to-triple-underscore replacement
followed by the illegal-character sanitation; the `pages/` directory is
checked before `journals/` (for any page name whose `pages/` file
exists, that file is returned); in particular `"Parent/Child"` resolves
to `pages/Parent___Child.md` whenever that file exists under an existing
graph root. -/
theorem c4_safe_name_resolution :
    (∀ name, safeNameOf name = (replaceSlash name).map sanitizeChar)
    ∧ safeNameOf (str "Parent/Child") = str "Parent___Child"
    ∧ (∀ (g : Graph) name, g.rootOk = true →
        (str "pages/" ++ safeNameOf name ++ str ".md") ∈ g.files →
        get_page_file_path name g = some (str "pages/" ++ safeNameOf name ++ str ".md"))
    ∧ (∀ (g : Graph), g.rootOk = true → str "pages/Parent___Child.md" ∈ g.files →
        get_page_file_path (str "Parent/Child") g
          = some (str "pages/Parent___Child.md")) := by
  have hpages : ∀ (g : Graph) name, g.rootOk = true →
      (str "pages/" ++ safeNameOf name ++ str ".md") ∈ g.files →
      get_page_file_path name g = some (str "pages/" ++ safeNameOf name ++ str ".md") := by
    intro g name hroot hmem
    simp only [get_page_file_path, hroot, if_true]
    rw [if_pos hmem]
  refine ⟨fun _ => rfl, by decide, hpages, ?_⟩
  intro g hroot hmem
  have hname : str "pages/" ++ safeNameOf (str "Parent/Child") ++ str ".md"
      = str "pages/Parent___Child.md" := by decide
  have h := hpages g (str "Parent/Child") hroot (by rw [hname]; exact hmem)
  rwa [hname] at h

/-- Witness for C4: the concrete resolution on a one-file graph. -/
theorem c4_safe_name_resolution_witness :
    (⟨true, [str "pages/Parent___Child.md"]⟩ : Graph).rootOk = true
    ∧ str "pages/Parent___Child.md"
        ∈ (⟨true, [str "pages/Parent___Child.md"]⟩ : Graph).files
    ∧ get_page_file_path (str "Parent/Child") ⟨true, [str "pages/Parent___Child.md"]⟩
        = some (str "pages/Parent___Child.md") :=
  ⟨rfl, by decide,
    c4_safe_name_resolution.2.2.2 ⟨true, [str "pages/Parent___Child.md"]⟩
      rfl (by decide)⟩

/-- C6: `get_file_metadata` is total: on a failed `stat`
(`OSError`/`IOError`) it returns exactly the zeroed record with absent
date strings and `exists = false`; on a successful `stat` the result has
`exists = true`. -/
theorem c6_metadata_total :
    (∀ isoformat, get_file_metadata isoformat none =
      { size := 0, size_mb := 0, modified_time := 0, created_time := 0,
        modified_date := none, created_date := none, «exists» := false })
    ∧ (∀ isoformat s, (get_file_metadata isoformat (some s)).«exists» = true) :=
  ⟨fun _ => rfl, fun _ _ => rfl⟩

/-- C1: the cache-key f-strings of `get_recent_pages` and
`get_recent_journals` do not evaluate to any key at all — `limit` and
`days` are unbound in the scopes where the f-strings occur (a
`NameError`), because they are assigned only inside the inner fetch
closures; evaluated in those inner scopes the keys would be
`"recent_pages_20"` and `"recent_journals_7"` as the spec states. -/
theorem c1_recent_cache_keys :
    recentPagesCacheKey = none
    ∧ recentJournalsCacheKey = none
    ∧ fstringNatKey (str "recent_pages_") fetchRecentPagesScope (str "limit")
        = some (str "recent_pages_20")
    ∧ fstringNatKey (str "recent_journals_") fetchRecentJournalsScope (str "days")
        = some (str "recent_journals_7") := by decide

theorem mem_insertByCountDesc (x y : Str × Nat) (l : List (Str × Nat))
    (h : y ∈ insertByCountDesc x l) : y = x ∨ y ∈ l := by
  induction l with
  | nil => simpa [insertByCountDesc] using h
  | cons z zs ih =>
    simp only [insertByCountDesc] at h
    split at h
    · simp only [List.mem_cons] at h ⊢
      tauto
    · simp only [List.mem_cons] at h
      rcases h with h | h
      · exact Or.inr (by simp [h])
      · rcases ih h with h2 | h2
        · exact Or.inl h2
        · exact Or.inr (by simp [h2])

theorem pairwise_insertByCountDesc (x : Str × Nat) (l : List (Str × Nat))
    (h : l.Pairwise (fun a b => b.2 ≤ a.2)) :
    (insertByCountDesc x l).Pairwise (fun a b => b.2 ≤ a.2) := by
  induction l with
  | nil => simp [insertByCountDesc]
  | cons z zs ih =>
    rcases List.pairwise_cons.mp h with ⟨hz, hzs⟩
    simp only [insertByCountDesc]
    split
    · rename_i hle
      refine List.pairwise_cons.mpr ⟨?_, h⟩
      intro b hb
      rcases List.mem_cons.mp hb with rfl | hb2
      · exact hle
      · exact le_trans (hz b hb2) hle
    · rename_i hgt
      push_neg at hgt
      refine List.pairwise_cons.mpr ⟨?_, ih hzs⟩
      intro b hb
      rcases mem_insertByCountDesc x b zs hb with rfl | hb2
      · exact le_of_lt hgt
      · exact hz b hb2

theorem perm_insertByCountDesc (x : Str × Nat) (l : List (Str × Nat)) :
    (insertByCountDesc x l).Perm (x :: l) := by
  induction l with
  | nil => exact List.Perm.refl _
  | cons z zs ih =>
    simp only [insertByCountDesc]
    split
    · exact List.Perm.refl _
    · exact (ih.cons z).trans (List.Perm.swap x z zs)

theorem filter_insertByCountDesc (x : Str × Nat) (l : List (Str × Nat)) (c : Nat) :
    (insertByCountDesc x l).filter (fun e => e.2 == c)
      = if x.2 == c then x :: l.filter (fun e => e.2 == c)
        else l.filter (fun e => e.2 == c) := by
  induction l with
  | nil => simp [insertByCountDesc, List.filter_cons]
  | cons z zs ih =>
    simp only [insertByCountDesc]
    split
    · rename_i hle
      simp [List.filter_cons]
    · rename_i hgt
      push_neg at hgt
      by_cases hx : (x.2 == c) = true
      · have hxc : x.2 = c := by simpa using hx
        have hz : (z.2 == c) = false := by
          simp only [beq_eq_false_iff_ne, ne_eq]
          omega
        simp [List.filter_cons, hz, ih, hx]
      · have hx2 : (x.2 == c) = false := by simpa using hx
        simp [List.filter_cons, ih, hx2]

theorem sortByCountDesc_pairwise (l : List (Str × Nat)) :
    (sortByCountDesc l).Pairwise (fun a b => b.2 ≤ a.2) := by
  induction l with
  | nil => simp [sortByCountDesc]
  | cons x xs ih =>
    exact pairwise_insertByCountDesc x _ ih

theorem sortByCountDesc_perm (l : List (Str × Nat)) :
    (sortByCountDesc l).Perm l := by
  induction l with
  | nil => exact List.Perm.refl _
  | cons x xs ih =>
    exact (perm_insertByCountDesc x (sortByCountDesc xs)).trans (ih.cons x)

theorem sortByCountDesc_filter (l : List (Str × Nat)) (c : Nat) :
    (sortByCountDesc l).filter (fun e => e.2 == c)
      = l.filter (fun e => e.2 == c) := by
  induction l with
  | nil => rfl
  | cons x xs ih =>
    simp only [sortByCountDesc, filter_insertByCountDesc, ih, List.filter_cons]

/-- C9: the orphan list, most-linked list and per-namespace page lists
are truncated by exactly a `take` of the configured limits; the
most-linked list is drawn from a rearrangement (a permutation) of
`page_link_counts` whose counts are in descending order and in which
the entries of any one count value keep their original iteration order
(Python `sorted` is stable, also under `reverse=True`), shown
concretely on a two-way tie — BUT the three limit attributes
`MAX_LINKED_PAGES`, `MAX_PAGES_PER_NAMESPACE` and `MAX_ORPHANED_PAGES`
are NOT among the attributes the `Config` class defines, so the
attribute reads in `get_graph_structure` raise `AttributeError`. -/
theorem c9_graph_structure_limits :
    configClassAttributes.contains (str "MAX_LINKED_PAGES") = false
    ∧ configClassAttributes.contains (str "MAX_PAGES_PER_NAMESPACE") = false
    ∧ configClassAttributes.contains (str "MAX_ORPHANED_PAGES") = false
    ∧ (∀ ps a b c, (fetch_graph_structure ps a b c).orphaned_list
        = (processPages ps).orphaned_pages.take c)
    ∧ (∀ ps a b c, (fetch_graph_structure ps a b c).most_linked_pages
        = (sortByCountDesc (processPages ps).page_link_counts).take a)
    ∧ (∀ ps a b c, (fetch_graph_structure ps a b c).namespaces
        = ((processPages ps).namespaces.filter (fun e => decide (e.1 ≠ str "_root"))).map
            (fun e => (e.1, e.2.length, (sortStrAsc e.2).take b)))
    ∧ (∀ l, (sortByCountDesc l).Pairwise (fun a b => b.2 ≤ a.2))
    ∧ (∀ l, (sortByCountDesc l).Perm l)
    ∧ (∀ l c, (sortByCountDesc l).filter (fun e => e.2 == c)
        = l.filter (fun e => e.2 == c))
    ∧ sortByCountDesc [(str "a", 1), (str "b", 1)]
        = [(str "a", 1), (str "b", 1)] :=
  ⟨by decide, by decide, by decide,
    fun _ _ _ _ => rfl, fun _ _ _ _ => rfl, fun _ _ _ _ => rfl,
    sortByCountDesc_pairwise, sortByCountDesc_perm, sortByCountDesc_filter,
    by decide⟩

theorem processOne_orphaned (acc : GraphAcc) (p : RemotePage) :
    (processOne acc p).orphaned_pages
      = acc.orphaned_pages ++ (if orphanEligible p then [p.name] else []) := by
  unfold processOne orphanEligible
  cases hr : p.refs with
  | error e => split <;> simp
  | ok n =>
    cases n with
    | zero =>
      cases hb : p.blocks with
      | error e => split <;> simp
      | ok bs =>
        by_cases hm : bs.any (fun b => hasSubstr (str "[[") b)
        · split <;> simp [hm]
        · split <;> simp [hm]
    | succ m => split <;> simp

theorem processPages_orphaned_go (ps : List RemotePage) :
    ∀ acc : GraphAcc, (ps.foldl processOne acc).orphaned_pages
      = acc.orphaned_pages ++ (ps.filter orphanEligible).map RemotePage.name := by
  induction ps with
  | nil => intro acc; simp
  | cons p rest ih =>
    intro acc
    simp only [List.foldl_cons, List.filter_cons]
    rw [ih (processOne acc p), processOne_orphaned]
    by_cases h : orphanEligible p
    · simp [h, List.append_assoc]
    · simp [h]

/-- C7: over the whole analysis loop, the orphan list is exactly the
(name of the) pages that are processed without error and whose iteration
classifies them orphaned; and a single page is classified orphaned iff
its linked-reference count is zero AND no block content contains the
substring `[[` — in particular a zero-reference page with a `[[` marker
is not orphaned. -/
theorem c7_orphan_classification :
    (∀ ps, (processPages ps).orphaned_pages
        = (ps.filter orphanEligible).map RemotePage.name)
    ∧ (∀ name j n bs, orphanEligible ⟨name, j, Except.ok n, Except.ok bs⟩
        = (decide (n = 0) && !(bs.any (fun b => hasSubstr (str "[[") b))))
    ∧ orphanEligible ⟨str "p", false, Except.ok 0,
        Except.ok [str "zero refs but [[link]] present"]⟩ = false := by
  refine ⟨?_, ?_, by decide⟩
  · intro ps
    have h := processPages_orphaned_go ps ⟨[], [], []⟩
    simpa [processPages] using h
  · intro name j n bs
    cases n <;> simp [orphanEligible]

/-- C8 counterexample: a page whose `get_page_blocks` call raises (after
a successful zero-count `get_page_linked_references` call) still
contributes its zero link count to `page_link_counts`, and hence shows
up in the most-linked ranking — contradicting "that page contributes to
neither the link-count accounting (page_link_counts / most-linked
ranking) nor the orphan list".  (It is indeed kept out of the orphan
list.) -/
theorem c8_error_page_counterexample :
    (⟨str "a", false, Except.ok 0, Except.error ()⟩ : RemotePage).blocks
        = Except.error ()
    ∧ (processPages [⟨str "a", false, Except.ok 0, Except.error ()⟩]).page_link_counts
        = [(str "a", 0)]
    ∧ (fetch_graph_structure [⟨str "a", false, Except.ok 0, Except.error ()⟩]
        10 50 50).most_linked_pages = [(str "a", 0)]
    ∧ (processPages [⟨str "a", false, Except.ok 0, Except.error ()⟩]).orphaned_pages
        = [] :=
  ⟨rfl, by decide, by decide, by decide⟩

/-- C8 amended: errors in per-page reference processing are caught and
the loop continues with the remaining pages; a page whose
linked-reference query raises contributes to neither `page_link_counts`
nor the orphan list; a page whose block fetch raises (reached only with
a recorded zero reference count) is kept out of the orphan list but its
zero count remains recorded in `page_link_counts` (and can therefore
appear in the most-linked ranking). -/
theorem c8_error_handling_amended (acc : GraphAcc) (p : RemotePage) :
    (∀ e, p.refs = Except.error e →
      (processOne acc p).orphaned_pages = acc.orphaned_pages
      ∧ (processOne acc p).page_link_counts = acc.page_link_counts)
    ∧ (∀ e, p.refs = Except.ok 0 → p.blocks = Except.error e →
      (processOne acc p).orphaned_pages = acc.orphaned_pages
      ∧ (processOne acc p).page_link_counts = countSet acc.page_link_counts p.name 0)
    ∧ (∀ ps, (p :: ps).foldl processOne acc = ps.foldl processOne (processOne acc p)) := by
  refine ⟨?_, ?_, fun ps => rfl⟩
  · intro e hr
    unfold processOne
    rw [hr]
    constructor <;> (split <;> rfl)
  · intro e hr hb
    unfold processOne
    rw [hr, hb]
    constructor <;> (split <;> rfl)

/-- Witness for C8 (amended): a concrete refs-error page leaves both
accumulators unchanged. -/
theorem c8_error_handling_amended_witness :
    (⟨str "a", false, Except.error (), Except.ok []⟩ : RemotePage).refs
        = Except.error ()
    ∧ (processOne ⟨[], [], []⟩
        ⟨str "a", false, Except.error (), Except.ok []⟩).orphaned_pages = ([] : List Str)
    ∧ (processOne ⟨[], [], []⟩
        ⟨str "a", false, Except.error (), Except.ok []⟩).page_link_counts
        = ([] : List (Str × Nat)) :=
  ⟨rfl,
    ((c8_error_handling_amended ⟨[], [], []⟩
      ⟨str "a", false, Except.error (), Except.ok []⟩).1 () rfl).1,
    ((c8_error_handling_amended ⟨[], [], []⟩
      ⟨str "a", false, Except.error (), Except.ok []⟩).1 () rfl).2⟩

theorem convert_dec_2024 (g : Graph)
    (hfile : str "journals/2024_12_01.md" ∈ g.files) :
    convert_journal_name_to_path (str "Dec 1st, 2024") g
      = some (str "journals/2024_12_01.md") := by
  have hs : stripOrdinals (str "Dec 1st, 2024") = str "Dec 1, 2024" := by decide
  have hp : strptimeMDY monthAbbrevs (str "") (str "Dec 1, 2024")
      = some (2024, 12, 1) := by decide
  have hj : str "journals/" ++ journalFileName 2024 12 1
      = str "journals/2024_12_01.md" := by decide
  unfold convert_journal_name_to_path
  rw [hs]
  simp only [strptimeFormats, tryJournalFormats, hp]
  rw [hj, if_pos hfile]

theorem convert_december_2024 (g : Graph)
    (hfile : str "journals/2024_12_01.md" ∈ g.files) :
    convert_journal_name_to_path (str "December 1, 2024") g
      = some (str "journals/2024_12_01.md") := by
  have hs : stripOrdinals (str "December 1, 2024") = str "December 1, 2024" := by decide
  have hp0 : strptimeMDY monthAbbrevs (str "") (str "December 1, 2024") = none := by decide
  have hp : strptimeMDY monthFulls (str "") (str "December 1, 2024")
      = some (2024, 12, 1) := by decide
  have hj : str "journals/" ++ journalFileName 2024 12 1
      = str "journals/2024_12_01.md" := by decide
  unfold convert_journal_name_to_path
  rw [hs]
  simp only [strptimeFormats, tryJournalFormats, hp0, hp]
  rw [hj, if_pos hfile]

/-- C5: under an existing graph root where `journals/2024_12_01.md`
exists and no `pages/` or `journals/` file matches the sanitized page
name directly, both `"Dec 1st, 2024"` (abbreviated month with ordinal,
whose ordinal suffix is stripped before parsing) and
`"December 1, 2024"` (full month) are recognized as journal names and
resolve to `journals/2024_12_01.md`. -/
theorem c5_journal_date_resolution (g : Graph) (hroot : g.rootOk = true)
    (hfile : str "journals/2024_12_01.md" ∈ g.files)
    (h1 : str "pages/Dec 1st, 2024.md" ∉ g.files)
    (h2 : str "journals/Dec 1st, 2024.md" ∉ g.files)
    (h3 : str "pages/December 1, 2024.md" ∉ g.files)
    (h4 : str "journals/December 1, 2024.md" ∉ g.files) :
    get_page_file_path (str "Dec 1st, 2024") g = some (str "journals/2024_12_01.md")
    ∧ get_page_file_path (str "December 1, 2024") g
        = some (str "journals/2024_12_01.md") := by
  constructor
  · have e1 : str "pages/" ++ safeNameOf (str "Dec 1st, 2024") ++ str ".md"
        = str "pages/Dec 1st, 2024.md" := by decide
    have e2 : str "journals/" ++ safeNameOf (str "Dec 1st, 2024") ++ str ".md"
        = str "journals/Dec 1st, 2024.md" := by decide
    have ej : is_journal_page_name (str "Dec 1st, 2024") = true := by decide
    simp only [get_page_file_path, hroot, if_true, e1, e2, ej]
    rw [if_neg h1, if_neg h2, convert_dec_2024 g hfile]
    simp [hfile]
  · have e1 : str "pages/" ++ safeNameOf (str "December 1, 2024") ++ str ".md"
        = str "pages/December 1, 2024.md" := by decide
    have e2 : str "journals/" ++ safeNameOf (str "December 1, 2024") ++ str ".md"
        = str "journals/December 1, 2024.md" := by decide
    have ej : is_journal_page_name (str "December 1, 2024") = true := by decide
    simp only [get_page_file_path, hroot, if_true, e1, e2, ej]
    rw [if_neg h3, if_neg h4, convert_december_2024 g hfile]
    simp [hfile]

/-- Witness for C5: the concrete one-file graph. -/
theorem c5_journal_date_resolution_witness :
    (⟨true, [str "journals/2024_12_01.md"]⟩ : Graph).rootOk = true
    ∧ str "journals/2024_12_01.md"
        ∈ (⟨true, [str "journals/2024_12_01.md"]⟩ : Graph).files
    ∧ get_page_file_path (str "Dec 1st, 2024")
        ⟨true, [str "journals/2024_12_01.md"]⟩ = some (str "journals/2024_12_01.md")
    ∧ get_page_file_path (str "December 1, 2024")
        ⟨true, [str "journals/2024_12_01.md"]⟩ = some (str "journals/2024_12_01.md") :=
  ⟨rfl, by decide,
    (c5_journal_date_resolution ⟨true, [str "journals/2024_12_01.md"]⟩ rfl
      (by decide) (by decide) (by decide) (by decide) (by decide)).1,
    (c5_journal_date_resolution ⟨true, [str "journals/2024_12_01.md"]⟩ rfl
      (by decide) (by decide) (by decide) (by decide) (by decide)).2⟩

theorem decDigit_ne_slash (n : Nat) : decDigit n ≠ '/' := by
  unfold decDigit
  split <;> decide

theorem mem_journalFileStem (c : Char) (y m d : Nat)
    (h : c ∈ journalFileStem y m d) :
    c = '_' ∨ c = decDigit (y / 1000) ∨ c = decDigit (y / 100)
      ∨ c = decDigit (y / 10) ∨ c = decDigit y
      ∨ c = decDigit (m / 10) ∨ c = decDigit m
      ∨ c = decDigit (d / 10) ∨ c = decDigit d := by
  simp [journalFileStem, pad4, pad2] at h
  tauto

theorem slash_not_mem_stem (y m d : Nat) : '/' ∉ journalFileStem y m d := by
  intro h
  rcases mem_journalFileStem '/' y m d h with h1 | h1 | h1 | h1 | h1 | h1 | h1 | h1 | h1
  · exact absurd h1 (by decide)
  all_goals exact decDigit_ne_slash _ h1.symm

theorem slash_not_mem_replaceSlash (s : Str) : '/' ∉ replaceSlash s := by
  induction s with
  | nil => simp [replaceSlash]
  | cons c cs ih =>
    intro hmem
    by_cases h : c = '/'
    · simp [replaceSlash, h] at hmem
      exact ih hmem
    · simp [replaceSlash, h] at hmem
      rcases hmem with h2 | h2
      · exact h h2.symm
      · exact ih h2

theorem slash_not_mem_safeName (name : Str) : '/' ∉ safeNameOf name := by
  intro h
  simp only [safeNameOf, List.mem_map] at h
  obtain ⟨a, ha, hs⟩ := h
  unfold sanitizeChar at hs
  split at hs
  · exact absurd hs (by decide)
  · exact slash_not_mem_replaceSlash name (hs ▸ ha)

theorem tryJournalFormats_some (fmts : List (List (Str × Nat) × Str))
    (cleaned : Str) (g : Graph) (p : Str)
    (h : tryJournalFormats fmts cleaned g = some p) :
    p ∈ g.files
    ∧ ∃ y m d, p = str "journals/" ++ (journalFileStem y m d ++ str ".md") := by
  induction fmts with
  | nil => exact absurd h (by simp [tryJournalFormats])
  | cons f rest ih =>
    obtain ⟨months, suffix⟩ := f
    cases hp : strptimeMDY months suffix cleaned with
    | none =>
      simp only [tryJournalFormats, hp] at h
      exact ih h
    | some t =>
      obtain ⟨y, m, d⟩ := t
      simp only [tryJournalFormats, hp] at h
      split at h
      · rename_i hmem
        cases h
        exact ⟨hmem, y, m, d, by simp [journalFileName]⟩
      · exact ih h

/-- C10: whenever `get_page_file_path` returns a path, that path is one
of the existing files of the graph root, and it is directly under
`pages/` or `journals/` (its base name contains no `/`, so it is not
nested deeper); a non-existent path is never returned. -/
theorem c10_resolved_paths (name : Str) (g : Graph) (p : Str)
    (h : get_page_file_path name g = some p) :
    p ∈ g.files
    ∧ ∃ base, '/' ∉ base
        ∧ (p = str "pages/" ++ base ++ str ".md"
          ∨ p = str "journals/" ++ base ++ str ".md") := by
  simp only [get_page_file_path] at h
  split at h
  · split at h
    · rename_i hmem
      cases h
      exact ⟨hmem, safeNameOf name, slash_not_mem_safeName name, Or.inl rfl⟩
    · split at h
      · rename_i hmem
        cases h
        exact ⟨hmem, safeNameOf name, slash_not_mem_safeName name, Or.inr rfl⟩
      · split at h
        · cases hc : convert_journal_name_to_path name g with
          | none =>
            simp only [hc] at h
            exact absurd h (by simp)
          | some dp =>
            simp only [hc] at h
            split at h
            · rename_i hmem
              have hc2 : tryJournalFormats strptimeFormats (stripOrdinals name) g
                  = some dp := hc
              obtain ⟨hmem2, y, m, d, hshape⟩ :=
                tryJournalFormats_some _ _ _ _ hc2
              cases h
              refine ⟨hmem, journalFileStem y m d, slash_not_mem_stem y m d,
                Or.inr ?_⟩
              rw [hshape]
              simp [List.append_assoc]
            · exact absurd h (by simp)
        · exact absurd h (by simp)
  · exact absurd h (by simp)

/-- Witness for C10: the concrete resolution of page `"A"`. -/
theorem c10_resolved_paths_witness :
    str "pages/A.md" ∈ (⟨true, [str "pages/A.md"]⟩ : Graph).files
    ∧ ∃ base, '/' ∉ base
        ∧ (str "pages/A.md" = str "pages/" ++ base ++ str ".md"
          ∨ str "pages/A.md" = str "journals/" ++ base ++ str ".md") :=
  c10_resolved_paths (str "A") ⟨true, [str "pages/A.md"]⟩ (str "pages/A.md")
    (by decide)
